import Mathlib

/-!
Shallow embedding of `src/py_versions.rs` (pyflow's Python-installation
manager): the hosted-build catalog, the alias probe, the local-install scan,
the downloader, the disambiguation prompt, and the `create_venv`
orchestrator.  External collaborators (subprocess probes, network fetch,
archive extraction, stdin) are inputs to the model; side effects are
recorded as explicit effect traces.
-/

set_option autoImplicit false

namespace PyVersions

/-- Modelled from the spec: `Version` from `dep_types` (not under `src/`) is
{major, minor, patch} non-negative integers; equality for matching uses only
(major, minor). -/
structure Version where
  major : Nat
  minor : Nat
  patch : Nat
deriving DecidableEq, Repr

/-- Modelled from the spec: `Version::to_string2` from `dep_types` (not under
`src/`) renders the dotted version string `major.minor.patch` used to name
install folders (`~/.python-installs/python-<version>`). -/
def version_str (v : Version) : String :=
  Nat.repr v.major ++ "." ++ Nat.repr v.minor ++ "." ++ Nat.repr v.patch

/-- The closed catalog of hosted builds (`enum PyVers`). -/
inductive PyVers where
  | V3_7_4
  | V3_6_9
  | V3_5_6
  | V3_4_10
deriving DecidableEq, Repr, Fintype

/-- `impl ToString for PyVers`. -/
def pyVersString : PyVers → String
  | .V3_7_4 => "3.7.4"
  | .V3_6_9 => "3.6.9"
  | .V3_5_6 => "3.5.6"
  | .V3_4_10 => "3.4.10"

/-- `PyVers::to_vers`. -/
def PyVers.to_vers : PyVers → Version
  | .V3_7_4 => ⟨3, 7, 4⟩
  | .V3_6_9 => ⟨3, 6, 9⟩
  | .V3_5_6 => ⟨3, 5, 6⟩
  | .V3_4_10 => ⟨3, 4, 10⟩

/-- `impl From<Version> for PyVers`: `util::abort` (process exit) is modelled
as `Except.error`. -/
def pyVersFrom (v : Version) : Except String PyVers :=
  if v.major ≠ 3 then
    Except.error "Unsupported python version requested; only Python 3 is supported"
  else
    match v.minor with
    | 4 => Except.ok PyVers.V3_4_10
    | 5 => Except.ok PyVers.V3_5_6
    | 6 => Except.ok PyVers.V3_6_9
    | 7 => Except.ok PyVers.V3_7_4
    | _ => Except.error "Unsupported python version requested; only Python >=3.4 is supported"

/-- Compile-target OS (`#[cfg(target_os = ...)]` blocks). -/
inductive OsType where
  | windows
  | linux
  | macos
deriving DecidableEq, Repr

/-- The OS tag used in artifact names (`let os = ...` in `download`). -/
def os_str : OsType → String
  | .windows => "windows"
  | .linux => "ubuntu"
  | .macos => "mac"

/-- The interpreter executable name under an install's `bin` folder
(`let py_name = ...`). -/
def py_name : OsType → String
  | .windows => "python"
  | .linux => "python3"
  | .macos => "python3"

/-- Filesystem paths as segment lists. -/
abbrev Path := List String

/-- Side effects performed by the pipeline, recorded as a trace. -/
inductive Effect where
  | createInstallsDir
  | aliasProbe
  | promptUser (aliases : List (String × Version))
  | fetch (url : String) (dest : Path)
  | extract (archive : Path) (dest : Path)
  | rename (src : Path) (dst : Path)
  | createLibDir (p : Path)
  | createVenvAlias (a : String) (lib : Path)
  | createVenvPath (p : Path) (lib : Path)
  | installWheel
deriving DecidableEq, Repr

/-- A directory entry under `~/.python-installs`: its name, whether it is a
directory, and the outcome of probing `<entry>/bin/<py_name> --version`
(the `commands::find_py_version` collaborator). -/
structure DirEntry where
  name : String
  isDir : Bool
  probed : Option Version
deriving DecidableEq, Repr

/-- The external world a provisioning call observes: home directory, the
state of the installs directory and its entries, the alias-probe collaborator
(`commands::find_py_version` on PATH names), the one line of stdin available
to the prompt, the set of existing paths (for the archive-exists check), and
whether the project lib path already exists. -/
structure World where
  home : Path
  installsDirExists : Bool
  entries : List DirEntry
  probe : String → Option Version
  stdinLine : String
  fs : List Path
  libPathExists : Bool

/-- `~/.python-installs` (`dirs::home_dir().join(".python-installs")`). -/
def installs_dir (w : World) : Path := w.home ++ [".python-installs"]

/-- Effects of the lazy creation of the installs directory performed by
`find_installed_versions`. -/
def scan_effects (w : World) : List Effect :=
  if w.installsDirExists then [] else [Effect.createInstallsDir]

/-- The versions collected by `find_installed_versions`: non-directories are
skipped, failed probes are silently excluded, and only the confirmed
`Version` is kept (the entry name is dropped). -/
def installed_versions (w : World) : List Version :=
  w.entries.filterMap fun e => if e.isDir then e.probed else none

/-- `find_installed_versions`: lazily creates the installs directory, then
returns the confirmed versions of probe-able directory entries. -/
def find_installed_versions (w : World) : List Effect × List Version :=
  (scan_effects w, installed_versions w)

/-- The fixed candidate command list of `find_py_aliases`. -/
def possible_aliases : List String :=
  ["python3.10", "python3.9", "python3.8", "python3.7", "python3.6",
   "python3.5", "python3.4", "python3.3", "python3.2", "python3.1",
   "python3", "python", "python2"]

/-- `find_py_aliases`: probe each candidate in order; keep those whose probe
succeeds with matching (major, minor). -/
def find_py_aliases (probe : String → Option Version) (version : Version) :
    List (String × Version) :=
  possible_aliases.filterMap fun a =>
    (probe a).bind fun v =>
      if v.major = version.major ∧ v.minor = version.minor then some (a, v) else none

/-- The parsing step of `prompt_alias`: `input.chars().next()` (panic on an
empty line) followed by `to_string().parse::<usize>()` on that one character
(succeeds exactly on an ASCII digit). -/
def parse_selection (input : String) : Except String Nat :=
  match input.data with
  | [] => Except.error "Problem reading input"
  | c :: _ =>
      if c.isDigit then Except.ok (c.toNat - 48)
      else Except.error "Enter the number associated with the Python alias."

/-- `prompt_alias` after the listing has been printed: parse the leading
character of the input line and look the index up in the 1-based mapping of
the listed aliases; any failure aborts. -/
def prompt_alias (aliases : List (String × Version)) (input : String) :
    Except String (String × Version) :=
  match parse_selection input with
  | Except.error e => Except.error e
  | Except.ok k =>
      match aliases[k - 1]? with
      | some av => if 1 ≤ k then Except.ok av else
          Except.error "Cannot find the Python alias associated with that number."
      | none => Except.error "Cannot find the Python alias associated with that number."

/-- The artifact URL computed by `download`: release tag equal to the dotted
hosted version, filename `python-<version>-<os>.tar.xz`. -/
def dl_url (pv : PyVers) (os : OsType) : String :=
  "https://github.com/David-OConnor/pybin/releases/download/" ++ pyVersString pv ++
    "/python-" ++ pyVersString pv ++ "-" ++ os_str os ++ ".tar.xz"

/-- `archive_path` in `download`. -/
def archive_path_of (pv : PyVers) (os : OsType) (dir : Path) : Path :=
  dir ++ ["python-" ++ pyVersString pv ++ "-" ++ os_str os ++ ".tar.xz"]

/-- The OS-tagged folder produced by extraction (`python-<version>-<os>`). -/
def tagged_path_of (pv : PyVers) (os : OsType) (dir : Path) : Path :=
  dir ++ ["python-" ++ pyVersString pv ++ "-" ++ os_str os]

/-- `extracted_path` in `download`: the canonical folder `python-<version>`. -/
def canonical_path_of (pv : PyVers) (dir : Path) : Path :=
  dir ++ ["python-" ++ pyVersString pv]

/-- `download`: convert the requested version through the catalog (aborting
on an unsupported version), skip the fetch when the archive already exists
(writing directly to the final archive path otherwise), extract the archive
into the installs directory, and rename the OS-tagged folder to the
canonical one.  The filesystem is a set of paths; extraction
(`unpack_tar_xz`, a collaborator) creates the OS-tagged folder.
`fs::rename` is part of the core: it fails when the canonical destination
folder already exists — a previous install is a non-empty directory, so the
rename errors on every platform and the `expect` aborts — and otherwise
replaces the tagged folder by the canonical one. -/
def dl_fetch_effects (pv : PyVers) (os : OsType) (fs : List Path) (dir : Path) :
    List Effect :=
  if archive_path_of pv os dir ∈ fs then []
  else [Effect.fetch (dl_url pv os) (archive_path_of pv os dir)]

def dl_fs_after_fetch (pv : PyVers) (os : OsType) (fs : List Path) (dir : Path) :
    List Path :=
  if archive_path_of pv os dir ∈ fs then fs else archive_path_of pv os dir :: fs

def runDownload (os : OsType) (fs : List Path) (dir : Path) (version : Version) :
    List Effect × List Path × Except String Unit :=
  match pyVersFrom version with
  | Except.error e => ([], fs, Except.error e)
  | Except.ok pv =>
      if canonical_path_of pv dir ∈ fs then
        (dl_fetch_effects pv os fs dir ++
           [Effect.extract (archive_path_of pv os dir) dir,
            Effect.rename (tagged_path_of pv os dir) (canonical_path_of pv dir)],
         tagged_path_of pv os dir :: dl_fs_after_fetch pv os fs dir,
         Except.error "Problem renaming extracted Python folder")
      else
        (dl_fetch_effects pv os fs dir ++
           [Effect.extract (archive_path_of pv os dir) dir,
            Effect.rename (tagged_path_of pv os dir) (canonical_path_of pv dir)],
         canonical_path_of pv dir ::
           (tagged_path_of pv os dir :: dl_fs_after_fetch pv os fs dir).erase
             (tagged_path_of pv os dir),
         Except.ok ())

/-- An interpreter handle: a PATH alias or an absolute path. -/
inductive Handle where
  | alias (name : String)
  | path (p : Path)
deriving DecidableEq, Repr

/-- The first-match predicate of the local-install loop in `create_venv`:
`iv.major == cfg_v.major && iv.minor == cfg_v.minor`. -/
def local_pred (cfg_v : Version) (iv : Version) : Bool :=
  iv.major == cfg_v.major && iv.minor == cfg_v.minor

/-- The path handle built for a local install: reconstructed from the
confirmed version, `<installs>/python-<version>/bin/<py_name>`. -/
def local_handle (os : OsType) (w : World) (iv : Version) : Handle :=
  Handle.path (installs_dir w ++ ["python-" ++ version_str iv, "bin", py_name os])

/-- The path handle built after a download:
`<installs>/python-<hosted version>/bin/<py_name>`. -/
def dl_handle (os : OsType) (w : World) (pv : PyVers) : Handle :=
  Handle.path (installs_dir w ++ ["python-" ++ pyVersString pv, "bin", py_name os])

/-- `vers_path.join("lib")`: `<project>/<major>.<minor>/lib` from the
confirmed version. -/
def lib_path_of (pv : Version) (dir : Path) : Path :=
  dir ++ [Nat.repr pv.major ++ "." ++ Nat.repr pv.minor, "lib"]

/-- The tail of `create_venv` common to all branches: lazily create the lib
directory, create the venv with the primitive matching the handle kind, and
install wheel. -/
def venv_tail (libExists : Bool) (h : Handle) (pv : Version) (dir : Path) : List Effect :=
  (if libExists then [] else [Effect.createLibDir (lib_path_of pv dir)]) ++
    [(match h with
      | Handle.alias a => Effect.createVenvAlias a (lib_path_of pv dir)
      | Handle.path p => Effect.createVenvPath p (lib_path_of pv dir)),
     Effect.installWheel]

/-- `create_venv`: the full fallback chain.  Returns the effect trace and
either an error (`util::abort` / `expect` panics) or the selected handle,
the confirmed version, and the project lib path. -/
def create_venv (os : OsType) (w : World) (cfg_v : Version) (dir : Path) :
    List Effect × Except String (Handle × Version × Path) :=
  match (installed_versions w).find? (local_pred cfg_v) with
  | some iv =>
      (scan_effects w ++ venv_tail w.libPathExists (local_handle os w iv) iv dir,
       Except.ok (local_handle os w iv, iv, lib_path_of iv dir))
  | none =>
      match find_py_aliases w.probe cfg_v with
      | [] =>
          match (runDownload os w.fs (installs_dir w) cfg_v).2.2, pyVersFrom cfg_v with
          | Except.error e, _ =>
              (scan_effects w ++ [Effect.aliasProbe] ++
                 (runDownload os w.fs (installs_dir w) cfg_v).1, Except.error e)
          | Except.ok _, Except.error e =>
              (scan_effects w ++ [Effect.aliasProbe] ++
                 (runDownload os w.fs (installs_dir w) cfg_v).1, Except.error e)
          | Except.ok _, Except.ok pv =>
              (scan_effects w ++ [Effect.aliasProbe] ++
                 (runDownload os w.fs (installs_dir w) cfg_v).1 ++
                 venv_tail w.libPathExists (dl_handle os w pv) (PyVers.to_vers pv) dir,
               Except.ok (dl_handle os w pv, PyVers.to_vers pv,
                 lib_path_of (PyVers.to_vers pv) dir))
      | [(a, v)] =>
          (scan_effects w ++ [Effect.aliasProbe] ++
             venv_tail w.libPathExists (Handle.alias a) v dir,
           Except.ok (Handle.alias a, v, lib_path_of v dir))
      | x :: y :: rest =>
          match prompt_alias (x :: y :: rest) w.stdinLine with
          | Except.error e =>
              (scan_effects w ++ [Effect.aliasProbe, Effect.promptUser (x :: y :: rest)],
               Except.error e)
          | Except.ok (a, v) =>
              (scan_effects w ++ [Effect.aliasProbe, Effect.promptUser (x :: y :: rest)] ++
                 venv_tail w.libPathExists (Handle.alias a) v dir,
               Except.ok (Handle.alias a, v, lib_path_of v dir))

/-- A probe that exposes a single `python2` alias reporting 2.7.16. -/
def probe_python2 (a : String) : Option Version :=
  if a = "python2" then some ⟨2, 7, 16⟩ else none

/-- World for the C3 counterexample: empty installs directory, a `python2`
alias on PATH. -/
def world_c3 : World :=
  { home := ["h"], installsDirExists := true, entries := [],
    probe := probe_python2, stdinLine := "", fs := [], libPathExists := true }

/-- A probe that finds no Python on PATH. -/
def probe_none (_ : String) : Option Version := none

/-- World for the C9 counterexample: one local install directory entry with a
non-canonical name whose probe confirms 3.7.4. -/
def world_c9 : World :=
  { home := ["h"], installsDirExists := true,
    entries := [⟨"custom-build", true, some ⟨3, 7, 4⟩⟩],
    probe := probe_none, stdinLine := "", fs := [], libPathExists := true }

/-- World with one canonical local 3.6.9 install. -/
def world_local369 : World :=
  { home := ["h"], installsDirExists := true,
    entries := [⟨"python-3.6.9", true, some ⟨3, 6, 9⟩⟩],
    probe := probe_python2, stdinLine := "", fs := [], libPathExists := true }

/-- A probe exposing two aliases that both report minor 6. -/
def probe_two36 (a : String) : Option Version :=
  if a = "python3.6" then some ⟨3, 6, 8⟩
  else if a = "python3" then some ⟨3, 6, 9⟩
  else none

/-- World for the multi-alias prompt scenario: no local installs, two PATH
aliases at minor 6, operator answers "2". -/
def world_two36 : World :=
  { home := ["h"], installsDirExists := true, entries := [],
    probe := probe_two36, stdinLine := "2", fs := [], libPathExists := true }

/-- World with nothing installed and nothing on PATH. -/
def world_empty : World :=
  { home := ["h"], installsDirExists := true, entries := [],
    probe := probe_none, stdinLine := "", fs := [], libPathExists := true }

/-- The effect trace of a fresh `download` of 3.7.0 on Linux. -/
def dl_trace_c8 : List Effect :=
  (runDownload OsType.linux [] ["h", ".python-installs"] ⟨3, 7, 0⟩).1

/-- The final archive path of that download. -/
def archive_c8 : Path := ["h", ".python-installs", "python-3.7.4-ubuntu.tar.xz"]

/-! ### Helper lemmas -/

theorem mem_scan_effects {w : World} {e : Effect} (h : e ∈ scan_effects w) :
    e = Effect.createInstallsDir := by
  unfold scan_effects at h
  split at h
  · simp at h
  · simpa using h

theorem mem_venv_tail {b : Bool} {hd : Handle} {pv : Version} {dir : Path} {e : Effect}
    (he : e ∈ venv_tail b hd pv dir) :
    (∃ p, e = Effect.createLibDir p) ∨ (∃ a l, e = Effect.createVenvAlias a l) ∨
      (∃ p l, e = Effect.createVenvPath p l) ∨ e = Effect.installWheel := by
  unfold venv_tail at he
  rcases List.mem_append.1 he with h1 | h2
  · cases b with
    | true => simp at h1
    | false =>
        simp at h1
        exact Or.inl ⟨_, h1⟩
  · rcases List.mem_cons.1 h2 with h3 | h4
    · rcases hd with a | p
      · exact Or.inr (Or.inl ⟨a, _, h3⟩)
      · exact Or.inr (Or.inr (Or.inl ⟨p, _, h3⟩))
    · simp at h4
      exact Or.inr (Or.inr (Or.inr h4))

theorem find?_of_exists {α : Type} {l : List α} {p : α → Bool}
    (h : ∃ x ∈ l, p x) : ∃ y, l.find? p = some y := by
  rw [← List.find?_isSome] at h
  exact Option.isSome_iff_exists.mp h

theorem pyVersFrom_error_of_bad {v : Version}
    (hbad : v.major ≠ 3 ∨ v.minor ∉ ([4, 5, 6, 7] : List Nat)) :
    ∃ msg, pyVersFrom v = Except.error msg := by
  unfold pyVersFrom
  by_cases hmaj : v.major ≠ 3
  · rw [if_pos hmaj]; exact ⟨_, rfl⟩
  · rw [if_neg hmaj]
    rcases hbad with h | h
    · exact absurd h hmaj
    · split
      · next hm => exact absurd (by simp [hm]) h
      · next hm => exact absurd (by simp [hm]) h
      · next hm => exact absurd (by simp [hm]) h
      · next hm => exact absurd (by simp [hm]) h
      · exact ⟨_, rfl⟩

theorem parse_selection_ok {input : String} {k : Nat}
    (h : parse_selection input = Except.ok k) :
    ∃ c rest, input.data = c :: rest ∧ c.isDigit = true ∧ k = c.toNat - 48 ∧ k ≤ 9 := by
  unfold parse_selection at h
  split at h
  · exact absurd h (by simp)
  · next c rest hd =>
      split at h
      · next hdig =>
          injection h with h'
          have h57 : c.toNat ≤ 57 := by
            simp [Char.isDigit] at hdig
            exact hdig.2
          exact ⟨c, rest, hd, hdig, h'.symm, by omega⟩
      · exact absurd h (by simp)

theorem filterMap_fst_sublist {β : Type} (f : String → Option (String × β))
    (l : List String) (hf : ∀ a p, f a = some p → p.1 = a) :
    ((l.filterMap f).map Prod.fst).Sublist l := by
  induction l with
  | nil => simp
  | cons a t ih =>
      rw [List.filterMap_cons]
      cases hfa : f a with
      | none => exact List.Sublist.cons a ih
      | some p =>
          rw [List.map_cons, hf a p hfa]
          exact List.Sublist.cons₂ a ih

/-! ### Claim theorems -/

/-- C2: for every requested Version with major = 3 and minor in {4, 5, 6, 7},
the catalog match (`From<Version> for PyVers`) returns the unique hosted
build with that minor — 3.4 ↦ 3.4.10, 3.5 ↦ 3.5.6, 3.6 ↦ 3.6.9,
3.7 ↦ 3.7.4 — and the mapping is a deterministic pure function of
(major, minor): the requested patch value never affects the result. -/
theorem catalog_match_hosted (p p' : Nat) :
    pyVersFrom ⟨3, 4, p⟩ = Except.ok PyVers.V3_4_10 ∧
    pyVersFrom ⟨3, 5, p⟩ = Except.ok PyVers.V3_5_6 ∧
    pyVersFrom ⟨3, 6, p⟩ = Except.ok PyVers.V3_6_9 ∧
    pyVersFrom ⟨3, 7, p⟩ = Except.ok PyVers.V3_7_4 ∧
    PyVers.to_vers PyVers.V3_4_10 = ⟨3, 4, 10⟩ ∧
    PyVers.to_vers PyVers.V3_5_6 = ⟨3, 5, 6⟩ ∧
    PyVers.to_vers PyVers.V3_6_9 = ⟨3, 6, 9⟩ ∧
    PyVers.to_vers PyVers.V3_7_4 = ⟨3, 7, 4⟩ ∧
    (∀ m : Nat, pyVersFrom ⟨3, m, p⟩ = pyVersFrom ⟨3, m, p'⟩) ∧
    (∀ pv pv' : PyVers, (PyVers.to_vers pv).minor = (PyVers.to_vers pv').minor → pv = pv') :=
  ⟨rfl, rfl, rfl, rfl, rfl, rfl, rfl, rfl, fun _ => rfl, by decide⟩

/-- Witness for C2 at minor 4, patches 0 and 5. -/
theorem catalog_match_hosted_witness :
    pyVersFrom ⟨3, 4, 0⟩ = Except.ok PyVers.V3_4_10 :=
  (catalog_match_hosted 0 5).1

/-- C4: for every requested Version and every assignment of probe results to
the 13 fixed candidate command names, `find_py_aliases` returns exactly those
candidates whose probe succeeds with a confirmed (major, minor) equal to the
requested one, in the fixed descending-preference candidate order, and never
a candidate with a differing (major, minor). -/
theorem alias_probe_exact (probe : String → Option Version) (req : Version) :
    possible_aliases.length = 13 ∧
    ((find_py_aliases probe req).map Prod.fst).Sublist possible_aliases ∧
    (∀ a v, (a, v) ∈ find_py_aliases probe req ↔
      (a ∈ possible_aliases ∧ probe a = some v ∧
        v.major = req.major ∧ v.minor = req.minor)) := by
  refine ⟨rfl, ?_, ?_⟩
  · unfold find_py_aliases
    apply filterMap_fst_sublist
    intro a pr hfp
    cases hpa : probe a with
    | none => rw [hpa] at hfp; simp at hfp
    | some v =>
        rw [hpa, Option.some_bind] at hfp
        by_cases hc : v.major = req.major ∧ v.minor = req.minor
        · rw [if_pos hc] at hfp
          injection hfp with hfp'
          rw [← hfp']
        · rw [if_neg hc] at hfp; simp at hfp
  · intro a v
    unfold find_py_aliases
    rw [List.mem_filterMap]
    constructor
    · rintro ⟨a', ha', hfa⟩
      cases hpa : probe a' with
      | none => rw [hpa] at hfa; simp at hfa
      | some v' =>
          rw [hpa, Option.some_bind] at hfa
          by_cases hc : v'.major = req.major ∧ v'.minor = req.minor
          · rw [if_pos hc] at hfa
            simp only [Option.some.injEq, Prod.mk.injEq] at hfa
            obtain ⟨rfl, rfl⟩ := hfa
            exact ⟨ha', hpa, hc.1, hc.2⟩
          · rw [if_neg hc] at hfa; simp at hfa
    · rintro ⟨ha, hpa, h1, h2⟩
      refine ⟨a, ha, ?_⟩
      rw [hpa, Option.some_bind, if_pos ⟨h1, h2⟩]

/-- Witness for C4: with two matching aliases on PATH, `python3` reporting
3.6.9 is returned for a 3.6 request. -/
theorem alias_probe_exact_witness :
    ("python3", (⟨3, 6, 9⟩ : Version)) ∈ find_py_aliases probe_two36 ⟨3, 6, 0⟩ :=
  ((alias_probe_exact probe_two36 ⟨3, 6, 0⟩).2.2 "python3" ⟨3, 6, 9⟩).mpr
    ⟨by decide, by decide, rfl, rfl⟩

/-- C10: only the first character of the operator's input line is parsed as
the selection: a leading digit d with 1 ≤ d ≤ length selects alias d
regardless of the remaining characters, any successful selection has index
at most 9, and an empty input line is a fatal error. -/
theorem prompt_first_char_only (aliases : List (String × Version)) (input : String) :
    (∀ c rest r, input.data = c :: rest → c.isDigit = true → 1 ≤ c.toNat - 48 →
        aliases[c.toNat - 48 - 1]? = some r →
        prompt_alias aliases input = Except.ok r) ∧
    (∀ r, prompt_alias aliases input = Except.ok r →
        ∃ k, 1 ≤ k ∧ k ≤ 9 ∧ aliases[k - 1]? = some r) ∧
    (input.data = [] → prompt_alias aliases input = Except.error "Problem reading input") := by
  refine ⟨?_, ?_, ?_⟩
  · intro c rest r hdata hdig h1 hget
    simp [prompt_alias, parse_selection, hdata, hdig, hget, h1]
  · intro r hok
    unfold prompt_alias at hok
    cases hp : parse_selection input with
    | error e => simp only [hp] at hok; simp at hok
    | ok k =>
        simp only [hp] at hok
        obtain ⟨c, rest, hdata, hdig, hk, hk9⟩ := parse_selection_ok hp
        cases hget : aliases[k - 1]? with
        | none => simp only [hget] at hok; simp at hok
        | some av =>
            simp only [hget] at hok
            by_cases h1 : 1 ≤ k
            · rw [if_pos h1] at hok
              injection hok with hok'
              exact ⟨k, h1, hk9, by rw [hget, hok']⟩
            · rw [if_neg h1] at hok
              simp at hok
  · intro h
    simp [prompt_alias, parse_selection, h]

/-- Witness for C10: input "12" over a two-element listing selects entry 1. -/
theorem prompt_first_char_only_witness :
    prompt_alias [("a", ⟨3, 6, 1⟩), ("b", ⟨3, 6, 2⟩)] "12" =
      Except.ok ("a", ⟨3, 6, 1⟩) :=
  (prompt_first_char_only [("a", ⟨3, 6, 1⟩), ("b", ⟨3, 6, 2⟩)] "12").1 '1' ['2']
    ("a", ⟨3, 6, 1⟩) rfl (by decide) (by decide) (by decide)

theorem benign_mem {w : World} {b : Bool} {hd : Handle} {pv : Version} {dir : Path}
    {e : Effect} (he : e ∈ scan_effects w ++ venv_tail b hd pv dir) :
    e = Effect.createInstallsDir ∨ (∃ p, e = Effect.createLibDir p) ∨
      (∃ a l, e = Effect.createVenvAlias a l) ∨ (∃ p l, e = Effect.createVenvPath p l) ∨
      e = Effect.installWheel := by
  rcases List.mem_append.1 he with h | h
  · exact Or.inl (mem_scan_effects h)
  · exact Or.inr (mem_venv_tail h)

/-- C1: if the scan of the local installs directory yields at least one entry
whose confirmed (major, minor) equals the requested (major, minor), then
`create_venv` returns a path-based interpreter handle whose confirmed version
is a matching scan entry, and its trace contains no alias probe, no
interactive prompt, and no download step (fetch, extract, rename). -/
theorem local_short_circuit (os : OsType) (w : World) (cfg_v : Version) (dir : Path)
    (hmatch : ∃ iv ∈ installed_versions w, local_pred cfg_v iv = true) :
    (∃ p pv, (create_venv os w cfg_v dir).2 =
        Except.ok (Handle.path p, pv, lib_path_of pv dir) ∧
        pv ∈ installed_versions w ∧ pv.major = cfg_v.major ∧ pv.minor = cfg_v.minor) ∧
    Effect.aliasProbe ∉ (create_venv os w cfg_v dir).1 ∧
    (∀ l, Effect.promptUser l ∉ (create_venv os w cfg_v dir).1) ∧
    (∀ u d, Effect.fetch u d ∉ (create_venv os w cfg_v dir).1) ∧
    (∀ a d, Effect.extract a d ∉ (create_venv os w cfg_v dir).1) ∧
    (∀ s d, Effect.rename s d ∉ (create_venv os w cfg_v dir).1) := by
  obtain ⟨iv, hfind⟩ := find?_of_exists hmatch
  have hmem := List.mem_of_find?_eq_some hfind
  have hpred := List.find?_some hfind
  simp only [local_pred, Bool.and_eq_true, beq_iff_eq] at hpred
  have hcv : create_venv os w cfg_v dir =
      (scan_effects w ++ venv_tail w.libPathExists (local_handle os w iv) iv dir,
       Except.ok (local_handle os w iv, iv, lib_path_of iv dir)) := by
    unfold create_venv
    rw [hfind]
  rw [hcv]
  refine ⟨⟨_, iv, rfl, hmem, hpred.1, hpred.2⟩, ?_, ?_, ?_, ?_, ?_⟩
  · intro h
    rcases benign_mem h with h | ⟨_, h⟩ | ⟨_, _, h⟩ | ⟨_, _, h⟩ | h <;> simp at h
  · intro l h
    rcases benign_mem h with h | ⟨_, h⟩ | ⟨_, _, h⟩ | ⟨_, _, h⟩ | h <;> simp at h
  · intro u d h
    rcases benign_mem h with h | ⟨_, h⟩ | ⟨_, _, h⟩ | ⟨_, _, h⟩ | h <;> simp at h
  · intro a d h
    rcases benign_mem h with h | ⟨_, h⟩ | ⟨_, _, h⟩ | ⟨_, _, h⟩ | h <;> simp at h
  · intro s d h
    rcases benign_mem h with h | ⟨_, h⟩ | ⟨_, _, h⟩ | ⟨_, _, h⟩ | h <;> simp at h

/-- Witness for C1: a local 3.6.9 install satisfies a 3.6 request and the
alias probe is never run, although a `python2` alias exists. -/
theorem local_short_circuit_witness :
    Effect.aliasProbe ∉ (create_venv OsType.linux world_local369 ⟨3, 6, 2⟩ ["proj"]).1 :=
  (local_short_circuit OsType.linux world_local369 ⟨3, 6, 2⟩ ["proj"]
    ⟨⟨3, 6, 9⟩, by decide, by decide⟩).2.1

/-- C3 counterexample: for requested version 2.7 (major ≠ 3), with a
`python2` alias on PATH confirming 2.7.16, the provisioning call succeeds
with an alias handle instead of failing with a configuration error. -/
theorem unsupported_not_always_fatal_cex :
    (create_venv OsType.linux world_c3 ⟨2, 7, 0⟩ ["proj"]).2 =
      Except.ok (Handle.alias "python2", ⟨2, 7, 16⟩, ["proj", "2.7", "lib"]) := by
  rfl

/-- C3 (amended): for a requested Version with major ≠ 3 or minor outside
{4, 5, 6, 7}, when neither the local scan nor the alias probe yields a
(major, minor) match, the provisioning call fails with the fatal
configuration error, and performs no fetch, no extraction, no rename, no
lib-directory creation and no venv creation — the only possible prior
side effects are the scan's lazy creation of the installs directory and the
alias probe itself. -/
theorem unsupported_fatal_at_download (os : OsType) (w : World) (cfg_v : Version)
    (dir : Path)
    (hbad : cfg_v.major ≠ 3 ∨ cfg_v.minor ∉ ([4, 5, 6, 7] : List Nat))
    (hnolocal : (installed_versions w).find? (local_pred cfg_v) = none)
    (hnoalias : find_py_aliases w.probe cfg_v = []) :
    (∃ msg, (create_venv os w cfg_v dir).2 = Except.error msg) ∧
    ∀ e, e ∈ (create_venv os w cfg_v dir).1 →
      e = Effect.createInstallsDir ∨ e = Effect.aliasProbe := by
  obtain ⟨msg, herr⟩ := pyVersFrom_error_of_bad hbad
  have hrdl : runDownload os w.fs (installs_dir w) cfg_v = ([], w.fs, Except.error msg) := by
    unfold runDownload
    rw [herr]
  have hcv : create_venv os w cfg_v dir =
      (scan_effects w ++ [Effect.aliasProbe] ++ [], Except.error msg) := by
    unfold create_venv
    rw [hnolocal, hnoalias, hrdl]
  rw [hcv]
  refine ⟨⟨msg, rfl⟩, ?_⟩
  intro e he
  rcases List.mem_append.1 he with h | h
  · rcases List.mem_append.1 h with h | h
    · exact Or.inl (mem_scan_effects h)
    · simp at h
      exact Or.inr h
  · simp at h

/-- Witness for C3 (amended): requested 3.8 with nothing installed and
nothing on PATH aborts with a configuration error. -/
theorem unsupported_fatal_at_download_witness :
    ∃ msg, (create_venv OsType.linux world_empty ⟨3, 8, 0⟩ ["proj"]).2 =
      Except.error msg :=
  (unsupported_fatal_at_download OsType.linux world_empty ⟨3, 8, 0⟩ ["proj"]
    (Or.inr (by decide)) (by decide) (by decide)).1

/-- C9 counterexample: the scan's only entry is the directory `custom-build`
whose probe confirms 3.7.4; the selected handle's path is reconstructed as
`python-3.7.4` and is not the executable of the probed entry
(`custom-build/bin/python3`). -/
theorem local_path_not_probed_entry_cex :
    (create_venv OsType.linux world_c9 ⟨3, 7, 0⟩ ["proj"]).2 =
      Except.ok (Handle.path ["h", ".python-installs", "python-3.7.4", "bin", "python3"],
        ⟨3, 7, 4⟩, ["proj", "3.7", "lib"]) ∧
    Handle.path (["h", ".python-installs", "python-3.7.4", "bin", "python3"] : Path) ≠
      Handle.path (["h", ".python-installs", "custom-build", "bin", "python3"] : Path) :=
  ⟨rfl, by decide⟩

/-- C9 (amended): when the local scan yields a (major, minor) match, the
provisioner selects the first match in scan order, and the path-based handle
is reconstructed from the confirmed version as
`<installs>/python-<version>/bin/<py_name>` — it coincides with the probed
entry's executable only when that entry is named `python-<version>`. -/
theorem local_first_match_reconstructed (os : OsType) (w : World) (cfg_v : Version)
    (dir : Path) (hmatch : ∃ iv ∈ installed_versions w, local_pred cfg_v iv = true) :
    ∃ iv, (installed_versions w).find? (local_pred cfg_v) = some iv ∧
      (create_venv os w cfg_v dir).2 = Except.ok
        (Handle.path (installs_dir w ++ ["python-" ++ version_str iv, "bin", py_name os]),
         iv, lib_path_of iv dir) := by
  obtain ⟨iv, hfind⟩ := find?_of_exists hmatch
  refine ⟨iv, hfind, ?_⟩
  unfold create_venv
  rw [hfind]
  rfl

/-- Witness for C9 (amended): the canonical local 3.6.9 install is selected
for a 3.6 request with the reconstructed path. -/
theorem local_first_match_reconstructed_witness :
    ∃ iv, (installed_versions world_local369).find? (local_pred ⟨3, 6, 0⟩) = some iv ∧
      (create_venv OsType.linux world_local369 ⟨3, 6, 0⟩ ["proj"]).2 = Except.ok
        (Handle.path (installs_dir world_local369 ++
          ["python-" ++ version_str iv, "bin", py_name OsType.linux]),
         iv, lib_path_of iv ["proj"]) :=
  local_first_match_reconstructed OsType.linux world_local369 ⟨3, 6, 0⟩ ["proj"]
    ⟨⟨3, 6, 9⟩, by decide, by decide⟩

/-- C7: whenever `create_venv` returns, the project environment directory is
`<project_root>/<major>.<minor>/lib` with major and minor taken from the
confirmed Version of the interpreter actually selected; and in the download
branch (no local match, no alias match) the confirmed Version is the hosted
build's own version. -/
theorem lib_path_from_confirmed (os : OsType) (w : World) (cfg_v : Version) (dir : Path)
    (hd : Handle) (pv : Version) (lib : Path)
    (hok : (create_venv os w cfg_v dir).2 = Except.ok (hd, pv, lib)) :
    lib = dir ++ [Nat.repr pv.major ++ "." ++ Nat.repr pv.minor, "lib"] ∧
    ((installed_versions w).find? (local_pred cfg_v) = none →
      find_py_aliases w.probe cfg_v = [] →
      ∃ hosted, pyVersFrom cfg_v = Except.ok hosted ∧ pv = PyVers.to_vers hosted) := by
  unfold create_venv at hok
  split at hok
  · next iv hfind =>
      simp only [Except.ok.injEq, Prod.mk.injEq] at hok
      obtain ⟨hh, hv, hl⟩ := hok
      subst hv
      refine ⟨hl.symm, ?_⟩
      intro hnone
      rw [hfind] at hnone
      simp at hnone
  · next hfind =>
      split at hok
      · next hA =>
          split at hok
          · simp at hok
          · simp at hok
          · rename_i pv2 heq1 heq2
            simp only [Except.ok.injEq, Prod.mk.injEq] at hok
            obtain ⟨hh, hv, hl⟩ := hok
            subst hv
            refine ⟨hl.symm, ?_⟩
            intro _ _
            exact ⟨pv2, heq2, rfl⟩
      · next a v hA =>
          simp only [Except.ok.injEq, Prod.mk.injEq] at hok
          obtain ⟨hh, hv, hl⟩ := hok
          subst hv
          refine ⟨hl.symm, ?_⟩
          intro _ hnoalias
          rw [hA] at hnoalias
          simp at hnoalias
      · next x y rest hA =>
          split at hok
          · next e hpa => simp at hok
          · next a v hpa =>
              simp only [Except.ok.injEq, Prod.mk.injEq] at hok
              obtain ⟨hh, hv, hl⟩ := hok
              subst hv
              refine ⟨hl.symm, ?_⟩
              intro _ hnoalias
              rw [hA] at hnoalias
              simp at hnoalias

/-- Witness for C7: in the download branch for requested 3.7.0 the folder is
named from the confirmed 3.7.4. -/
theorem lib_path_from_confirmed_witness :
    (["proj", "3.7", "lib"] : Path) =
      ["proj"] ++ [Nat.repr 3 ++ "." ++ Nat.repr 7, "lib"] :=
  (lib_path_from_confirmed OsType.linux world_empty ⟨3, 7, 0⟩ ["proj"]
    (dl_handle OsType.linux world_empty PyVers.V3_7_4) ⟨3, 7, 4⟩
    ["proj", "3.7", "lib"] (by rfl)).1

/-- C6: evaluation at the failing input — the second consecutive `download`
of 3.7.0 into the same installs directory performs no fetch (the archive
from the first run still exists, so the trace is exactly extract-then-
rename), but then aborts at the rename of the re-extracted OS-tagged folder
onto the still-present canonical folder `python-3.7.4` instead of
completing successfully; the canonical folder itself survives. -/
theorem download_second_run_rename_fails :
    runDownload OsType.linux (runDownload OsType.linux [] ["i"] ⟨3, 7, 0⟩).2.1
        ["i"] ⟨3, 7, 0⟩ =
      ([Effect.extract ["i", "python-3.7.4-ubuntu.tar.xz"] ["i"],
        Effect.rename ["i", "python-3.7.4-ubuntu"] ["i", "python-3.7.4"]],
       [["i", "python-3.7.4-ubuntu"], ["i", "python-3.7.4"],
        ["i", "python-3.7.4-ubuntu.tar.xz"]],
       Except.error "Problem renaming extracted Python folder") ∧
    (["i", "python-3.7.4"] : Path) ∈
      (runDownload OsType.linux (runDownload OsType.linux [] ["i"] ⟨3, 7, 0⟩).2.1
        ["i"] ⟨3, 7, 0⟩).2.1 :=
  ⟨rfl, by decide⟩

/-- C8 counterexample: in a fresh download of 3.7.0 on Linux, there is no
temporary fetch destination that is later moved to the final archive path —
the fetch writes to the final archive path directly. -/
theorem download_no_temp_move_cex :
    ¬ ∃ tmp, tmp ≠ archive_c8 ∧
        Effect.fetch (dl_url PyVers.V3_7_4 OsType.linux) tmp ∈ dl_trace_c8 ∧
        Effect.rename tmp archive_c8 ∈ dl_trace_c8 := by
  rintro ⟨tmp, hne, hf, hr⟩
  have ht : dl_trace_c8 =
      [Effect.fetch (dl_url PyVers.V3_7_4 OsType.linux) archive_c8,
       Effect.extract archive_c8 ["h", ".python-installs"],
       Effect.rename ["h", ".python-installs", "python-3.7.4-ubuntu"]
         ["h", ".python-installs", "python-3.7.4"]] := rfl
  rw [ht] at hf
  simp at hf
  exact hne hf

/-- C8 (amended): `download` performs the steps in order: compute the
artifact URL (release tag equal to the dotted hosted version, filename
`python-<version>-<platform>.tar.xz`); if the archive is absent, fetch it
directly to the final archive path (no temporary intermediate); extract the
archive into the installs directory; rename the extracted OS-tagged folder
`python-<version>-<platform>` to the canonical name `python-<version>`. -/
theorem download_steps (os : OsType) (fs : List Path) (dir : Path) (v : Version)
    (pv : PyVers) (hsup : pyVersFrom v = Except.ok pv) :
    (runDownload os fs dir v).1 =
      (if archive_path_of pv os dir ∈ fs then []
       else [Effect.fetch (dl_url pv os) (archive_path_of pv os dir)]) ++
        [Effect.extract (archive_path_of pv os dir) dir,
         Effect.rename (tagged_path_of pv os dir) (canonical_path_of pv dir)] ∧
    archive_path_of pv os dir =
      dir ++ ["python-" ++ pyVersString pv ++ "-" ++ os_str os ++ ".tar.xz"] ∧
    dl_url pv os =
      "https://github.com/David-OConnor/pybin/releases/download/" ++ pyVersString pv ++
        "/python-" ++ pyVersString pv ++ "-" ++ os_str os ++ ".tar.xz" ∧
    tagged_path_of pv os dir =
      dir ++ ["python-" ++ pyVersString pv ++ "-" ++ os_str os] ∧
    canonical_path_of pv dir = dir ++ ["python-" ++ pyVersString pv] := by
  refine ⟨?_, rfl, rfl, rfl, rfl⟩
  unfold runDownload
  rw [hsup]
  split
  · next e heq => exact absurd heq (by simp)
  · next pv2 heq =>
      obtain rfl : pv2 = pv := by
        injection heq with h
        exact h.symm
      split <;> rfl

theorem count_promptUser_scan {w : World} {l : List (String × Version)} :
    (scan_effects w).count (Effect.promptUser l) = 0 := by
  rw [List.count_eq_zero]
  intro h
  exact absurd (mem_scan_effects h) (by simp)

theorem count_promptUser_tail {b : Bool} {hd : Handle} {pv : Version} {dir : Path}
    {l : List (String × Version)} :
    (venv_tail b hd pv dir).count (Effect.promptUser l) = 0 := by
  rw [List.count_eq_zero]
  intro h
  rcases mem_venv_tail h with ⟨_, h⟩ | ⟨_, _, h⟩ | ⟨_, _, h⟩ | h <;> simp at h

theorem create_venv_multi (os : OsType) (w : World) (cfg_v : Version) (dir : Path)
    (x y : String × Version) (rest : List (String × Version))
    (hnolocal : (installed_versions w).find? (local_pred cfg_v) = none)
    (hA : find_py_aliases w.probe cfg_v = x :: y :: rest) :
    create_venv os w cfg_v dir =
      match prompt_alias (x :: y :: rest) w.stdinLine with
      | Except.error e =>
          (scan_effects w ++ [Effect.aliasProbe, Effect.promptUser (x :: y :: rest)],
           Except.error e)
      | Except.ok (a, v) =>
          (scan_effects w ++ [Effect.aliasProbe, Effect.promptUser (x :: y :: rest)] ++
             venv_tail w.libPathExists (Handle.alias a) v dir,
           Except.ok (Handle.alias a, v, lib_path_of v dir)) := by
  unfold create_venv
  rw [hnolocal, hA]

/-- C5: when the local scan yields no match — if the alias probe returns
exactly one match, it is selected with no interactive prompt; if it returns
two or more, exactly one prompt is issued carrying that same probe-ordered
list, a selection whose parsed index k is in range returns the k-th element
of that list, and a failing parse or lookup aborts the whole call with its
error and no re-prompt. -/
theorem alias_selection_prompting (os : OsType) (w : World) (cfg_v : Version) (dir : Path)
    (hnolocal : (installed_versions w).find? (local_pred cfg_v) = none) :
    (∀ a v, find_py_aliases w.probe cfg_v = [(a, v)] →
        (create_venv os w cfg_v dir).2 = Except.ok (Handle.alias a, v, lib_path_of v dir) ∧
        ∀ l, Effect.promptUser l ∉ (create_venv os w cfg_v dir).1) ∧
    (2 ≤ (find_py_aliases w.probe cfg_v).length →
        ((create_venv os w cfg_v dir).1.count
            (Effect.promptUser (find_py_aliases w.probe cfg_v)) = 1 ∧
          ∀ l, l ≠ find_py_aliases w.probe cfg_v →
            Effect.promptUser l ∉ (create_venv os w cfg_v dir).1) ∧
        (∀ k a v, parse_selection w.stdinLine = Except.ok k → 1 ≤ k →
            (find_py_aliases w.probe cfg_v)[k - 1]? = some (a, v) →
            (create_venv os w cfg_v dir).2 = Except.ok (Handle.alias a, v, lib_path_of v dir)) ∧
        (∀ e, prompt_alias (find_py_aliases w.probe cfg_v) w.stdinLine = Except.error e →
            (create_venv os w cfg_v dir).2 = Except.error e)) := by
  constructor
  · intro a v hA
    have hcv : create_venv os w cfg_v dir =
        (scan_effects w ++ [Effect.aliasProbe] ++
           venv_tail w.libPathExists (Handle.alias a) v dir,
         Except.ok (Handle.alias a, v, lib_path_of v dir)) := by
      unfold create_venv
      rw [hnolocal, hA]
    rw [hcv]
    refine ⟨rfl, ?_⟩
    intro l h
    rcases List.mem_append.1 h with h | h
    · rcases List.mem_append.1 h with h | h
      · exact absurd (mem_scan_effects h) (by simp)
      · simp at h
    · rcases mem_venv_tail h with ⟨_, h⟩ | ⟨_, _, h⟩ | ⟨_, _, h⟩ | h <;> simp at h
  · intro h2len
    obtain ⟨x, y, rest, hA⟩ :
        ∃ x y rest, find_py_aliases w.probe cfg_v = x :: y :: rest := by
      cases hA : find_py_aliases w.probe cfg_v with
      | nil => rw [hA] at h2len; simp at h2len
      | cons x t =>
          cases t with
          | nil => rw [hA] at h2len; simp at h2len
          | cons y rest => exact ⟨x, y, rest, rfl⟩
    have htr : ∃ tail : List Effect,
        (create_venv os w cfg_v dir).1 =
          scan_effects w ++ [Effect.aliasProbe, Effect.promptUser (x :: y :: rest)] ++ tail ∧
        ∀ l, Effect.promptUser l ∉ tail := by
      cases hpa : prompt_alias (x :: y :: rest) w.stdinLine with
      | error e =>
          refine ⟨[], ?_, by simp⟩
          have hcv := create_venv_multi os w cfg_v dir x y rest hnolocal hA
          rw [hpa] at hcv
          rw [hcv]
          simp
      | ok av =>
          obtain ⟨a0, v0⟩ := av
          refine ⟨venv_tail w.libPathExists (Handle.alias a0) v0 dir, ?_, ?_⟩
          · have hcv := create_venv_multi os w cfg_v dir x y rest hnolocal hA
            rw [hpa] at hcv
            rw [hcv]
          · intro l h
            rcases mem_venv_tail h with ⟨_, h⟩ | ⟨_, _, h⟩ | ⟨_, _, h⟩ | h <;> simp at h
    obtain ⟨tail, htr, htail⟩ := htr
    refine ⟨⟨?_, ?_⟩, ?_, ?_⟩
    · rw [hA, htr, List.count_append, List.count_append, count_promptUser_scan]
      rw [List.count_eq_zero.2 (htail _)]
      simp [List.count_cons]
    · intro l hne h
      rw [htr] at h
      rcases List.mem_append.1 h with h | h
      · rcases List.mem_append.1 h with h | h
        · exact absurd (mem_scan_effects h) (by simp)
        · rw [← hA] at h
          simp at h
          exact hne h
      · exact htail l h
    · intro k a v hp hk1 hget
      rw [hA] at hget
      have hpa : prompt_alias (x :: y :: rest) w.stdinLine = Except.ok (a, v) := by
        unfold prompt_alias
        rw [hp]
        simp [hget, hk1]
      have hcv := create_venv_multi os w cfg_v dir x y rest hnolocal hA
      rw [hpa] at hcv
      rw [hcv]
    · intro e hperr
      rw [hA] at hperr
      have hcv := create_venv_multi os w cfg_v dir x y rest hnolocal hA
      rw [hperr] at hcv
      rw [hcv]

/-- Witness for C5: two PATH aliases both report minor 6; the prompt list is
the probe-ordered pair and answering "2" selects the second. -/
theorem alias_selection_prompting_witness :
    (create_venv OsType.linux world_two36 ⟨3, 6, 0⟩ ["proj"]).2 =
      Except.ok (Handle.alias "python3", ⟨3, 6, 9⟩,
        lib_path_of ⟨3, 6, 9⟩ ["proj"]) :=
  (((alias_selection_prompting OsType.linux world_two36 ⟨3, 6, 0⟩ ["proj"]
      (by decide)).2 (by decide)).2.1) 2 "python3" ⟨3, 6, 9⟩ (by rfl) (by decide)
    (by rfl)

/-- Witness for C8 (amended): fresh 3.7.0 download on Linux. -/
theorem download_steps_witness :
    (runDownload OsType.linux [] ["i"] ⟨3, 7, 0⟩).1 =
      (if archive_path_of PyVers.V3_7_4 OsType.linux ["i"] ∈ ([] : List Path) then []
       else [Effect.fetch (dl_url PyVers.V3_7_4 OsType.linux)
         (archive_path_of PyVers.V3_7_4 OsType.linux ["i"])]) ++
        [Effect.extract (archive_path_of PyVers.V3_7_4 OsType.linux ["i"]) ["i"],
         Effect.rename (tagged_path_of PyVers.V3_7_4 OsType.linux ["i"])
           (canonical_path_of PyVers.V3_7_4 ["i"])] :=
  (download_steps OsType.linux [] ["i"] ⟨3, 7, 0⟩ PyVers.V3_7_4 rfl).1

end PyVersions
